import Mathlib

/-!
Verification of the data-normalization and metadata-correlation layer of the
Annotation_GUI repository (src/dataloader.py and src/visualizer.py), as a
shallow embedding in Lean 4.

Numeric arrays are modelled as a flat list of rational values together with a
shape and a dtype tag; file systems are modelled as directory listings (lists
of file names); decoding by external libraries (PIL, OpenCV) is modelled as an
oracle function supplied by the caller that either yields decoded data or an
error, mirroring the `try/except` structure of the Python code.
-/

/-- Numpy dtype tags distinguished by `PatientVisualizer.frame_to_pil_image`. -/
inductive Dtype where
  | uint8
  | uint16
  | float32
  | float64
  | otherInt
deriving DecidableEq, Repr

/-- A numpy array: shape, dtype, and the flattened element values (rationals;
float and integer payloads are both embedded in ℚ). -/
structure NpFrame where
  shape : List Nat
  dtype : Dtype
  data : List ℚ
deriving DecidableEq, Repr

/-- `ndarray.max()` over the flattened data (0 on the empty array). -/
def listMax : List ℚ → ℚ
  | [] => 0
  | x :: xs => xs.foldl max x

/-- Truncation toward zero, as C casts / Python `int()` / numpy `astype` do. -/
def ratTrunc (x : ℚ) : ℤ :=
  if 0 ≤ x then ⌊x⌋ else ⌈x⌉

/-- `astype(np.uint8)` on a single scalar: truncate toward zero, wrap mod 256. -/
def toUint8 (x : ℚ) : ℕ :=
  ((ratTrunc x) % 256).toNat

/-- The dtype-normalization step of `frame_to_pil_image`
(src/visualizer.py lines 71-83): uint8 passes through; floats are scaled by
255 when the observed max is ≤ 1.0 and otherwise divided by the observed max
then scaled by 255; uint16 is divided by 256; any other integer dtype is cast
directly.  All non-uint8 branches truncate to 8-bit via `astype(np.uint8)`. -/
def normalizeDtype (f : NpFrame) : NpFrame :=
  if f.dtype = .uint8 then f
  else if f.dtype = .float32 ∨ f.dtype = .float64 then
    if listMax f.data > 1 then
      { f with dtype := .uint8,
               data := f.data.map (fun v => ((toUint8 (v / listMax f.data * 255) : ℕ) : ℚ)) }
    else
      { f with dtype := .uint8,
               data := f.data.map (fun v => ((toUint8 (v * 255) : ℕ) : ℚ)) }
  else if f.dtype = .uint16 then
    { f with dtype := .uint8,
             data := f.data.map (fun v => ((toUint8 (v / 256) : ℕ) : ℚ)) }
  else
    { f with dtype := .uint8,
             data := f.data.map (fun v => ((toUint8 v : ℕ) : ℚ)) }

/-- Possible outcomes of `frame_to_pil_image`'s shape dispatch.  The code
either builds a PIL image with an explicit mode, or hands the array to
`Image.fromarray` with no mode (the "try default" / "fallback" branches).
The `unsupportedFrameShape` constructor exists so that the spec's claimed
error outcome is expressible; the code never produces it. -/
inductive PilResult where
  | image (mode : String) (f : NpFrame)
  | fromarrayDefault (f : NpFrame)
  | unsupportedFrameShape (msg : String)
deriving DecidableEq, Repr

/-- `PatientVisualizer.frame_to_pil_image` (src/visualizer.py lines 68-101):
dtype normalization followed by shape dispatch.  Rank 2 → mode "L"; rank 3
with 3 channels → "RGB"; rank 3 with 4 channels → "RGBA"; any other rank-3
channel count and any other rank fall through to `Image.fromarray` with no
mode argument. -/
def frame_to_pil_image (f : NpFrame) : PilResult :=
  let g := normalizeDtype f
  if g.shape.length = 2 then .image "L" g
  else if g.shape.length = 3 then
    if g.shape.getD 2 0 = 3 then .image "RGB" g
    else if g.shape.getD 2 0 = 4 then .image "RGBA" g
    else .fromarrayDefault g
  else .fromarrayDefault g

/-- Whether a `PilResult` is the claimed descriptive shape error. -/
def PilResult.isUnsupported : PilResult → Bool
  | .unsupportedFrameShape _ => true
  | _ => false

/-! ## Tabular metadata: FileList.csv and VolumeTracings.csv -/

/-- One row of FileList.csv. -/
structure FileListRow where
  FileName : String
  EF : ℚ
  ESV : ℚ
  EDV : ℚ
  FrameHeight : ℤ
  FrameWidth : ℤ
  FPS : ℚ
  NumberOfFrames : ℤ
deriving DecidableEq, Repr

/-- One row of VolumeTracings.csv. -/
structure TracingRow where
  FileName : String
  Frame : ℤ
  X1 : ℚ
  Y1 : ℚ
  X2 : ℚ
  Y2 : ℚ
deriving DecidableEq, Repr

/-- One tracing point record as built by `get_volume_tracings`. -/
structure TracingPoint where
  x1 : ℚ
  y1 : ℚ
  x2 : ℚ
  y2 : ℚ
deriving DecidableEq, Repr

/-- The point record extracted from a tracing row. -/
def TracingRow.toPoint (r : TracingRow) : TracingPoint :=
  ⟨r.X1, r.Y1, r.X2, r.Y2⟩

/-- Python `str.endswith` over the character list of a string. -/
def strEndsWith (s t : String) : Bool := t.data.isSuffixOf s.data

/-- Python `str.startswith` over the character list of a string. -/
def strStartsWith (s t : String) : Bool := t.data.isPrefixOf s.data

/-- Split a character list at every `'.'`. -/
def splitOnDot : List Char → List (List Char)
  | [] => [[]]
  | c :: cs =>
    let r := splitOnDot cs
    if c = '.' then [] :: r
    else
      match r with
      | [] => [[c]]
      | y :: ys => (c :: y) :: ys

/-- Join character lists with `'.'` between them. -/
def joinDot : List (List Char) → List Char
  | [] => []
  | [x] => x
  | x :: xs => x ++ '.' :: joinDot xs

/-- `filename.split('.')[0]`: the part of the name before the first dot. -/
def splitDotHead (s : String) : String :=
  ⟨(splitOnDot s.data).headD []⟩

/-- `pathlib.Path.stem`: the file name with its last suffix removed. -/
def fileStem (s : String) : String :=
  let parts := splitOnDot s.data
  if parts.length ≤ 1 then s else ⟨joinDot parts.dropLast⟩

/-- `pathlib.Path.suffix`: the last extension including the dot, or "". -/
def fileSuffix (s : String) : String :=
  let parts := splitOnDot s.data
  if parts.length ≤ 1 then "" else ⟨'.' :: parts.getLastD []⟩

/-- `PatientDataLoader.get_filelist_metadata` (src/dataloader.py lines 55-82):
exact match on the FileName column, first matching row, or `none` when the
table is absent or nothing matches.  The Python dict copies the row's fields
one for one, so the row itself stands for the returned record. -/
def get_filelist_metadata (tbl : Option (List FileListRow)) (filename : String) :
    Option FileListRow :=
  match tbl with
  | none => none
  | some rows => (rows.filter (fun r => r.FileName = filename)).head?

/-- Row selection of `get_volume_tracings` (src/dataloader.py lines 98-105):
exact FileName match first; only when that is empty, rows whose FileName
starts with the part of the queried name before its first dot. -/
def selectTracingRows (rows : List TracingRow) (filename : String) : List TracingRow :=
  let exact := rows.filter (fun r => r.FileName = filename)
  if exact.isEmpty then
    rows.filter (fun r => strStartsWith r.FileName (splitDotHead filename))
  else exact

/-- One step of the grouping loop: append point `p` to the entry for frame
`fr`, creating the entry at the end when absent (Python dicts preserve
insertion order). -/
def insertTracing (acc : List (ℤ × List TracingPoint)) (fr : ℤ) (p : TracingPoint) :
    List (ℤ × List TracingPoint) :=
  match acc with
  | [] => [(fr, [p])]
  | (k, ps) :: rest =>
      if k = fr then (k, ps ++ [p]) :: rest
      else (k, ps) :: insertTracing rest fr p

/-- The grouping loop of `get_volume_tracings` (src/dataloader.py lines
111-122): iterate over the selected rows in order, appending each row's point
to its frame's list. -/
def groupTracings (rows : List TracingRow) : List (ℤ × List TracingPoint) :=
  rows.foldl (fun acc r => insertTracing acc r.Frame r.toPoint) []

/-- Lookup in the grouped mapping; `[]` when the frame has no entry. -/
def groupLookup (m : List (ℤ × List TracingPoint)) (fr : ℤ) : List TracingPoint :=
  match m with
  | [] => []
  | (k, ps) :: rest => if k = fr then ps else groupLookup rest fr

/-- `PatientDataLoader.get_volume_tracings` (src/dataloader.py lines 84-124):
empty mapping when the table is absent or no row matches; otherwise the
matching rows (exact, falling back to stem-prefix) grouped by frame number. -/
def get_volume_tracings (tbl : Option (List TracingRow)) (filename : String) :
    List (ℤ × List TracingPoint) :=
  match tbl with
  | none => []
  | some rows =>
      let m := selectTracingRows rows filename
      if m.isEmpty then [] else groupTracings m

/-! ## Overlay renderer: draw_tracings_on_frame -/

/-- Clamping of one coordinate as in src/visualizer.py lines 54-57:
`max(0, min(v, lim - 1))`. -/
def clampCoord (v : ℤ) (lim : ℤ) : ℤ :=
  max 0 (min v (lim - 1))

/-- "Pulled to the nearest edge": the spec's description of clamping, written
independently of the code's `max/min` formulation, for comparison. -/
def nearestEdge (v : ℤ) (lim : ℤ) : ℤ :=
  if v < 0 then 0 else if lim - 1 < v then lim - 1 else v

/-- An RGB color triple. -/
abbrev Color := ℕ × ℕ × ℕ

/-- One call to an OpenCV drawing primitive, recording exactly the arguments
the Python code passes. -/
inductive DrawCall where
  | circle (center : ℤ × ℤ) (radius : ℕ) (color : Color)
  | line (p : ℤ × ℤ) (q : ℤ × ℤ) (color : Color)
deriving DecidableEq, Repr

/-- The points a draw call touches as its anchor arguments. -/
def DrawCall.anchors : DrawCall → List (ℤ × ℤ)
  | .circle c _ _ => [c]
  | .line p q _ => [p, q]

/-- The body of the per-tracing loop in `draw_tracings_on_frame`
(src/visualizer.py lines 46-64): truncate the four float coordinates with
`int()`, clamp each into the frame bounds, then draw a green circle at the
first endpoint, a blue circle at the second, and a yellow connecting line. -/
def tracingCalls (w h : ℤ) (t : TracingPoint) : List DrawCall :=
  let x1 := clampCoord (ratTrunc t.x1) w
  let y1 := clampCoord (ratTrunc t.y1) h
  let x2 := clampCoord (ratTrunc t.x2) w
  let y2 := clampCoord (ratTrunc t.y2) h
  [ .circle (x1, y1) 2 (0, 255, 0),
    .circle (x2, y2) 2 (255, 0, 0),
    .line (x1, y1) (x2, y2) (255, 255, 0) ]

/-- All draw calls issued for a tracing list, in loop order. -/
def drawCallsOf (w h : ℤ) (ts : List TracingPoint) : List DrawCall :=
  ts.flatMap (tracingCalls w h)

/-- A pixel buffer (flattened 8-bit contents). -/
abbrev PixBuf := List ℕ

/-- The heap of live numpy arrays, for stating non-mutation: each buffer is a
slot; `frame.copy()` allocates a fresh slot; OpenCV primitives mutate a slot
in place. -/
abbrev Store := List PixBuf

/-- `PatientVisualizer.draw_tracings_on_frame` (src/visualizer.py lines
31-66) over the store model: copy the input buffer into a fresh slot, apply
every OpenCV draw call in order to that slot in place, and return the store
with the new slot together with its index.  `applyCall` is the in-place pixel
semantics of `cv2.circle`/`cv2.line`, an external library, kept abstract. -/
def draw_tracings_on_frame (applyCall : PixBuf → DrawCall → PixBuf) (w h : ℤ)
    (store : Store) (i : ℕ) (ts : List TracingPoint) : Store × ℕ :=
  let copied := store.getD i []
  let drawn := (drawCallsOf w h ts).foldl applyCall copied
  (store ++ [drawn], store.length)

/-! ## Modality loaders: load_ecg, load_echo, load_angio -/

/-- glob `*.png`. -/
def isPng (name : String) : Bool := strEndsWith name ".png"

/-- glob `ecg_visualization_*.png`. -/
def isEcgPng (name : String) : Bool :=
  strStartsWith name "ecg_visualization_" && strEndsWith name ".png"

/-- `glob("*.mp4")` followed by `glob("*.avi")` over a directory listing, in
listing order, mp4 first (src/dataloader.py line 190). -/
def videoFiles (dir : List String) : List String :=
  dir.filter (fun n => strEndsWith n ".mp4") ++ dir.filter (fun n => strEndsWith n ".avi")

/-- A decoded still image as PIL yields it: pixel array, mode, size. -/
structure PilImg where
  arr : NpFrame
  mode : String
  size : ℕ × ℕ
deriving DecidableEq, Repr

/-- Metadata dict built by `load_ecg` / `load_angio`. -/
structure StillMeta where
  modality : String
  format : String
  shape : List ℕ
  size : ℕ × ℕ
  mode : String
  dims : Option (ℕ × ℕ × ℕ)
deriving DecidableEq, Repr

/-- `PatientDataLoader.load_ecg` (src/dataloader.py lines 129-170): take the
first `ecg_visualization_*.png` in the directory, `None` when there is none;
decode it via PIL, `None` when decoding raises (the exception is printed and
swallowed).  The width/height/channels unpacking raises for ranks other than
2 or 3, which the same `except` turns into `None`. -/
def load_ecg (dir : List String) (decode : String → Except String PilImg) :
    Option (NpFrame × StillMeta) :=
  match dir.filter isEcgPng with
  | [] => none
  | f :: _ =>
    match decode f with
    | .error _ => none
    | .ok img =>
      let s := img.arr.shape
      if s.length = 3 then
        some (img.arr,
          ⟨"ECG", "png", s, img.size, img.mode, some (s.getD 1 0, s.getD 0 0, s.getD 2 0)⟩)
      else if s.length = 2 then
        some (img.arr,
          ⟨"ECG", "png", s, img.size, img.mode, some (s.getD 1 0, s.getD 0 0, 1)⟩)
      else none

/-- `PatientDataLoader.load_angio` (src/dataloader.py lines 243-276): take
the first `*.png` in the directory regardless of naming, `None` when there is
none; decode via PIL, `None` when decoding raises. -/
def load_angio (dir : List String) (decode : String → Except String PilImg) :
    Option (NpFrame × StillMeta) :=
  match dir.filter isPng with
  | [] => none
  | f :: _ =>
    match decode f with
    | .error _ => none
    | .ok img =>
      some (img.arr, ⟨"Cardiac Angiography", "png", img.arr.shape, img.size, img.mode, none⟩)

/-- The file `load_angio` selects: the first `*.png` of the listing
(src/dataloader.py lines 256-260). -/
def angioFile (dir : List String) : Option String :=
  (dir.filter isPng).head?

/-- What `cv2.VideoCapture` yields for one container: container-level
properties and the ordered list of decoded frames (`α` is the raw frame
payload; BGR→RGB conversion is a supplied function on it). -/
structure EchoDecoded (α : Type) where
  fps : ℚ
  totalFrames : ℤ
  width : ℤ
  height : ℤ
  frames : List α

/-- Metadata dict built by `load_echo` (src/dataloader.py lines 218-236).
The `filelist_data` and `volume_tracings` keys are present in the Python dict
exactly when the corresponding `Option` here is `some` / the list nonempty:
the code adds them only under `if filelist_data:` / `if volume_tracings:`. -/
structure EchoMeta where
  modality : String
  format : String
  fps : ℚ
  total_frames : ℤ
  width : ℤ
  height : ℤ
  frame_count : ℕ
  filelist_data : Option FileListRow
  volume_tracings : Option (List (ℤ × List TracingPoint))

/-- `PatientDataLoader.load_echo` (src/dataloader.py lines 172-241): first
`.mp4`-or-`.avi` container, `None` when there is none; decode via OpenCV,
`None` when decoding raises; convert every frame BGR→RGB; join FileList.csv
on the stem and VolumeTracings.csv on the full name; the two optional
metadata keys are added only when their lookups are truthy (non-`None`
dict, nonempty mapping). -/
def load_echo {α : Type} (dir : List String)
    (decode : String → Except String (EchoDecoded α)) (conv : α → α)
    (filelist : Option (List FileListRow)) (tracings : Option (List TracingRow)) :
    Option (List α × EchoMeta) :=
  match videoFiles dir with
  | [] => none
  | f :: _ =>
    match decode f with
    | .error _ => none
    | .ok d =>
      let frames := d.frames.map conv
      let vt := get_volume_tracings tracings f
      some (frames,
        { modality := "Echocardiography"
          format := fileSuffix f
          fps := d.fps
          total_frames := d.totalFrames
          width := d.width
          height := d.height
          frame_count := frames.length
          filelist_data := get_filelist_metadata filelist (fileStem f)
          volume_tracings := if vt.isEmpty then none else some vt })

/-! ## Helper lemmas -/

/-- On float dtypes, `normalizeDtype` is the observed-max rescale map. -/
theorem normalizeDtype_float (f : NpFrame) (hf : f.dtype = .float32 ∨ f.dtype = .float64) :
    normalizeDtype f =
      if 1 < listMax f.data then
        { f with dtype := .uint8,
                 data := f.data.map (fun v => ((toUint8 (v / listMax f.data * 255) : ℕ) : ℚ)) }
      else
        { f with dtype := .uint8,
                 data := f.data.map (fun v => ((toUint8 (v * 255) : ℕ) : ℚ)) } := by
  rcases hf with h | h <;> simp [normalizeDtype, h]

/-- `normalizeDtype` never changes the shape. -/
theorem normalizeDtype_shape (f : NpFrame) : (normalizeDtype f).shape = f.shape := by
  unfold normalizeDtype
  split_ifs <;> rfl

/-- `normalizeDtype` always yields dtype uint8. -/
theorem normalizeDtype_dtype (f : NpFrame) : (normalizeDtype f).dtype = .uint8 := by
  unfold normalizeDtype
  split_ifs with h1 <;> first | (rw [h1]) | rfl

/-- An 8-bit cast result is at most 255. -/
theorem toUint8_le (x : ℚ) : toUint8 x ≤ 255 := by
  unfold toUint8
  have h := Int.emod_lt_of_pos (ratTrunc x) (b := 256) (by norm_num)
  omega

/-- Folding `max` over elements all below the accumulator returns it. -/
theorem foldl_max_le (xs : List ℚ) (a : ℚ) (h : ∀ v ∈ xs, v ≤ a) : xs.foldl max a = a := by
  induction xs generalizing a with
  | nil => rfl
  | cons y ys ih =>
    simp only [List.foldl_cons]
    rw [max_eq_left (h y (by simp))]
    exact ih a (fun v hv => h v (by simp [hv]))

/-- The observed maximum of an all-zero array is 0. -/
theorem listMax_zero (l : List ℚ) (h : ∀ v ∈ l, v = 0) : listMax l = 0 := by
  cases l with
  | nil => rfl
  | cons x xs =>
    have hx : x = 0 := h x (by simp)
    simp only [listMax]
    rw [foldl_max_le xs x (fun v hv => by rw [h v (by simp [hv]), hx])]
    exact hx

/-- C2, counterexample: on the float frame [1/2, 1/4] (max 1/2 ≤ 1.0) the
code truncates 0.5·255 = 127.5 to 127, not the claimed round(127.5) = 128:
canonicalization does not map v to round(v·255). -/
theorem float_rescale_round_cex :
    (normalizeDtype ⟨[2], Dtype.float64, [(1 : ℚ)/2, (1 : ℚ)/4]⟩).data ≠
      [((round (((1 : ℚ)/2) * 255) : ℤ) : ℚ), ((round (((1 : ℚ)/4) * 255) : ℤ) : ℚ)] := by
  have hm : listMax [(1 : ℚ)/2, (1 : ℚ)/4] = 1/2 := by
    simp only [listMax, List.foldl_cons, List.foldl_nil]
    exact max_eq_left (by norm_num)
  have h1 : (normalizeDtype ⟨[2], Dtype.float64, [(1 : ℚ)/2, (1 : ℚ)/4]⟩).data
      = [(127 : ℚ), 63] := by
    rw [normalizeDtype_float _ (Or.inr rfl), if_neg (by rw [hm]; norm_num)]
    show List.map _ _ = _
    simp only [List.map_cons, List.map_nil]
    norm_num [toUint8, ratTrunc]
    simp
  have h2 : [((round (((1 : ℚ)/2) * 255) : ℤ) : ℚ), ((round (((1 : ℚ)/4) * 255) : ℤ) : ℚ)]
      = [(128 : ℚ), 64] := by
    norm_num [round_eq]
  rw [h1, h2]
  norm_num

/-- C2, amended: on a float frame, canonicalization maps each element v to
the value v·255 truncated to 8 bits when the observed maximum is ≤ 1.0, and
to v/max·255 truncated to 8 bits when the observed maximum exceeds 1.0; the
output dtype is 8-bit unsigned and every output value lies in [0, 255]. -/
theorem float_rescale_truncates (f : NpFrame)
    (hf : f.dtype = .float32 ∨ f.dtype = .float64) :
    (normalizeDtype f).dtype = Dtype.uint8 ∧
    (∀ i : ℕ, (normalizeDtype f).data.get? i =
      (f.data.get? i).map (fun v =>
        if 1 < listMax f.data then ((toUint8 (v / listMax f.data * 255) : ℕ) : ℚ)
        else ((toUint8 (v * 255) : ℕ) : ℚ))) ∧
    ∀ v ∈ (normalizeDtype f).data, 0 ≤ v ∧ v ≤ 255 := by
  refine ⟨normalizeDtype_dtype f, ?_, ?_⟩
  · intro i
    rw [normalizeDtype_float f hf]
    split_ifs with h <;> simp [List.get?_map, h]
  · intro v hv
    rw [normalizeDtype_float f hf] at hv
    split_ifs at hv <;>
    · simp only [List.mem_map] at hv
      obtain ⟨u, _, rfl⟩ := hv
      refine ⟨by positivity, ?_⟩
      exact_mod_cast toUint8_le _

/-- C2, witness: the float frame [3, 1] has max 3 > 1, its first element
canonicalizes to trunc(3/3·255) = 255 and the dtype becomes uint8. -/
theorem float_rescale_truncates_witness :
    (normalizeDtype ⟨[2], Dtype.float64, [(3 : ℚ), 1]⟩).dtype = Dtype.uint8 ∧
    (normalizeDtype ⟨[2], Dtype.float64, [(3 : ℚ), 1]⟩).data.get? 0 = some 255 := by
  have h := float_rescale_truncates ⟨[2], Dtype.float64, [(3 : ℚ), 1]⟩ (Or.inr rfl)
  refine ⟨h.1, ?_⟩
  rw [h.2.1 0]
  have hm : listMax [(3 : ℚ), 1] = 3 := by
    simp only [listMax, List.foldl_cons, List.foldl_nil]
    exact max_eq_left (by norm_num)
  simp only [hm]
  norm_num [toUint8, ratTrunc]
  simp

/-- C3, counterexample: a rank-1 uint8 frame and a rank-3 frame with 2
channels are both handed to `Image.fromarray` with no mode (the "fallback"
branches); `frame_to_pil_image` raises no UnsupportedFrameShape error. -/
theorem unsupported_shape_no_error_cex :
    frame_to_pil_image ⟨[5], Dtype.uint8, [1, 2, 3, 4, 5]⟩ =
      PilResult.fromarrayDefault ⟨[5], Dtype.uint8, [1, 2, 3, 4, 5]⟩ ∧
    (frame_to_pil_image ⟨[5], Dtype.uint8, [1, 2, 3, 4, 5]⟩).isUnsupported = false ∧
    frame_to_pil_image ⟨[2, 2, 2], Dtype.uint8, [1, 2, 3, 4, 5, 6, 7, 8]⟩ =
      PilResult.fromarrayDefault ⟨[2, 2, 2], Dtype.uint8, [1, 2, 3, 4, 5, 6, 7, 8]⟩ ∧
    (frame_to_pil_image ⟨[2, 2, 2], Dtype.uint8, [1, 2, 3, 4, 5, 6, 7, 8]⟩).isUnsupported
      = false := by
  refine ⟨by decide, by decide, by decide, by decide⟩

/-- C3, amended: rank 2 yields a grayscale image, rank 3 with 3 channels an
RGB image, rank 3 with 4 channels an RGBA image; every other rank or rank-3
channel count is delegated to the imaging library's default conversion
(`Image.fromarray` with no mode), and no branch of `frame_to_pil_image`
produces an UnsupportedFrameShape error. -/
theorem shape_dispatch_modes (f : NpFrame) :
    (f.shape.length = 2 → frame_to_pil_image f = .image "L" (normalizeDtype f)) ∧
    (f.shape.length = 3 → f.shape.getD 2 0 = 3 →
        frame_to_pil_image f = .image "RGB" (normalizeDtype f)) ∧
    (f.shape.length = 3 → f.shape.getD 2 0 = 4 →
        frame_to_pil_image f = .image "RGBA" (normalizeDtype f)) ∧
    (f.shape.length = 3 → f.shape.getD 2 0 ≠ 3 → f.shape.getD 2 0 ≠ 4 →
        frame_to_pil_image f = .fromarrayDefault (normalizeDtype f)) ∧
    (f.shape.length ≠ 2 → f.shape.length ≠ 3 →
        frame_to_pil_image f = .fromarrayDefault (normalizeDtype f)) ∧
    (frame_to_pil_image f).isUnsupported = false := by
  have hs := normalizeDtype_shape f
  refine ⟨fun h2 => ?_, fun h3 hc3 => ?_, fun h3 hc4 => ?_,
          fun h3 hn3 hn4 => ?_, fun hn2 hn3 => ?_, ?_⟩
  · simp only [frame_to_pil_image, hs]
    rw [if_pos h2]
  · simp only [frame_to_pil_image, hs]
    rw [if_neg (by omega), if_pos h3, if_pos hc3]
  · simp only [frame_to_pil_image, hs]
    rw [if_neg (by omega), if_pos h3, if_neg (by omega), if_pos hc4]
  · simp only [frame_to_pil_image, hs]
    rw [if_neg (by omega), if_pos h3, if_neg hn3, if_neg hn4]
  · simp only [frame_to_pil_image, hs]
    rw [if_neg hn2, if_neg hn3]
  · simp only [frame_to_pil_image]
    split_ifs <;> rfl

/-- C3, witness: a 2×2 uint16 frame becomes a grayscale ("L") image and a
1×1×3 frame an RGB image. -/
theorem shape_dispatch_modes_witness :
    frame_to_pil_image ⟨[2, 2], Dtype.uint16, [256, 512, 0, 65280]⟩ =
      PilResult.image "L" (normalizeDtype ⟨[2, 2], Dtype.uint16, [256, 512, 0, 65280]⟩) ∧
    frame_to_pil_image ⟨[1, 1, 3], Dtype.uint8, [9, 9, 9]⟩ =
      PilResult.image "RGB" (normalizeDtype ⟨[1, 1, 3], Dtype.uint8, [9, 9, 9]⟩) := by
  exact ⟨(shape_dispatch_modes _).1 (by decide),
         (shape_dispatch_modes _).2.1 (by decide) (by decide)⟩

/-- C6: an all-zero float frame canonicalizes, taking the branch that never
divides by the observed maximum, to an all-zero 8-bit frame of the same
shape and length. -/
theorem allzero_float_frame_zero_image (f : NpFrame)
    (hf : f.dtype = .float32 ∨ f.dtype = .float64)
    (hz : ∀ v ∈ f.data, v = 0) :
    (normalizeDtype f).shape = f.shape ∧
    (normalizeDtype f).dtype = Dtype.uint8 ∧
    (normalizeDtype f).data.length = f.data.length ∧
    ∀ v ∈ (normalizeDtype f).data, v = 0 := by
  have hmax : listMax f.data = 0 := listMax_zero f.data hz
  refine ⟨normalizeDtype_shape f, normalizeDtype_dtype f, ?_, ?_⟩
  · rw [normalizeDtype_float f hf]
    split_ifs <;> simp
  · rw [normalizeDtype_float f hf, if_neg (by rw [hmax]; norm_num)]
    intro v hv
    simp only [List.mem_map] at hv
    obtain ⟨u, hu, rfl⟩ := hv
    rw [hz u hu]
    norm_num [toUint8, ratTrunc]

/-- C6, witness: the all-zero 2×2 float32 frame canonicalizes to an all-zero
uint8 frame of shape [2, 2]. -/
theorem allzero_float_frame_zero_image_witness :
    (normalizeDtype ⟨[2, 2], Dtype.float32, [0, 0, 0, 0]⟩).shape = [2, 2] ∧
    (normalizeDtype ⟨[2, 2], Dtype.float32, [0, 0, 0, 0]⟩).dtype = Dtype.uint8 ∧
    (normalizeDtype ⟨[2, 2], Dtype.float32, [0, 0, 0, 0]⟩).data.length = 4 ∧
    ∀ v ∈ (normalizeDtype ⟨[2, 2], Dtype.float32, [0, 0, 0, 0]⟩).data, v = 0 := by
  have h := allzero_float_frame_zero_image ⟨[2, 2], Dtype.float32, [0, 0, 0, 0]⟩
    (Or.inl rfl) (by decide)
  exact ⟨h.1, h.2.1, h.2.2.1, h.2.2.2⟩

/-- Inserting a point for frame `k` appends it to frame `k`'s group and
leaves every other frame's group unchanged. -/
theorem groupLookup_insertTracing (acc : List (ℤ × List TracingPoint)) (k : ℤ)
    (p : TracingPoint) (fr : ℤ) :
    groupLookup (insertTracing acc k p) fr =
      if k = fr then groupLookup acc fr ++ [p] else groupLookup acc fr := by
  induction acc with
  | nil =>
    simp only [insertTracing, groupLookup]
    split_ifs <;> simp [groupLookup]
  | cons hd rest ih =>
    obtain ⟨q, ps⟩ := hd
    simp only [insertTracing]
    by_cases hq : q = k
    · subst hq
      rw [if_pos rfl]
      by_cases hfr : q = fr
      · subst hfr
        simp [groupLookup]
      · simp [groupLookup, hfr]
    · rw [if_neg hq]
      by_cases hfr : q = fr
      · subst hfr
        have hkfr : ¬(k = q) := fun hcon => hq hcon.symm
        simp [groupLookup, hkfr]
      · simp only [groupLookup, if_neg hfr, ih]
  
/-- Folding the grouping step over rows extends each frame's group by that
frame's rows' points, in row order. -/
theorem groupLookup_foldl (rows : List TracingRow)
    (acc : List (ℤ × List TracingPoint)) (fr : ℤ) :
    groupLookup (rows.foldl (fun a r => insertTracing a r.Frame r.toPoint) acc) fr =
      groupLookup acc fr ++ (rows.filter (fun r => r.Frame = fr)).map TracingRow.toPoint := by
  induction rows generalizing acc with
  | nil => simp
  | cons r rs ih =>
    simp only [List.foldl_cons]
    rw [ih, groupLookup_insertTracing]
    by_cases hr : r.Frame = fr
    · rw [if_pos hr]
      simp [List.filter_cons, hr, List.append_assoc]
    · rw [if_neg hr]
      simp [List.filter_cons, hr]

/-- Looking a frame up in the grouped mapping yields exactly that frame's
rows' points in source row order. -/
theorem groupLookup_groupTracings (rows : List TracingRow) (fr : ℤ) :
    groupLookup (groupTracings rows) fr =
      (rows.filter (fun r => r.Frame = fr)).map TracingRow.toPoint := by
  have h := groupLookup_foldl rows [] fr
  simpa [groupTracings, groupLookup] using h

/-- C4: the annotation lookup selects rows matching the filename exactly;
exactly when no row matches exactly it falls back to rows whose FileName
starts with the part of the filename before the first dot; the selected rows
are grouped by frame number preserving source row order within each group,
and the mapping is empty (not an error) when the table is absent or nothing
matches. -/
theorem get_volume_tracings_spec (rows : List TracingRow) (filename : String) :
    ((rows.filter (fun r => r.FileName = filename)) ≠ [] →
        selectTracingRows rows filename = rows.filter (fun r => r.FileName = filename)) ∧
    ((rows.filter (fun r => r.FileName = filename)) = [] →
        selectTracingRows rows filename =
          rows.filter (fun r => strStartsWith r.FileName (splitDotHead filename))) ∧
    (∀ fr : ℤ, groupLookup (get_volume_tracings (some rows) filename) fr =
        ((selectTracingRows rows filename).filter (fun r => r.Frame = fr)).map
          TracingRow.toPoint) ∧
    get_volume_tracings none filename = [] ∧
    (selectTracingRows rows filename = [] → get_volume_tracings (some rows) filename = []) := by
  refine ⟨?_, ?_, ?_, rfl, ?_⟩
  · intro hne
    simp only [selectTracingRows]
    rw [if_neg (by simpa [List.isEmpty_iff] using hne)]
  · intro he
    simp only [selectTracingRows]
    rw [if_pos (by simpa [List.isEmpty_iff] using he)]
  · intro fr
    simp only [get_volume_tracings]
    by_cases hsel : (selectTracingRows rows filename).isEmpty
    · rw [if_pos hsel]
      rw [List.isEmpty_iff] at hsel
      rw [hsel]
      simp [groupLookup]
    · rw [if_neg hsel]
      exact groupLookup_groupTracings _ fr
  · intro hsel
    simp only [get_volume_tracings]
    rw [if_pos (by simp [hsel])]

/-- C4, witness: with two rows for "X1.avi" frame 10 and one for "X2.avi"
frame 3, the lookup for "X1.avi" groups frame 10 to exactly the two points
in source row order. -/
theorem get_volume_tracings_spec_witness :
    groupLookup (get_volume_tracings
        (some [⟨"X1.avi", 10, 1, 2, 3, 4⟩, ⟨"X1.avi", 10, 5, 6, 7, 8⟩,
               ⟨"X2.avi", 3, 0, 1, 2, 3⟩]) "X1.avi") 10
      = [⟨1, 2, 3, 4⟩, ⟨5, 6, 7, 8⟩] := by
  have h := (get_volume_tracings_spec
      [⟨"X1.avi", 10, 1, 2, 3, 4⟩, ⟨"X1.avi", 10, 5, 6, 7, 8⟩, ⟨"X2.avi", 3, 0, 1, 2, 3⟩]
      "X1.avi").2.2.1 10
  rw [h]
  decide

/-- A clamped coordinate lies in [0, lim-1]. -/
theorem clampCoord_mem (v lim : ℤ) (hl : 0 < lim) :
    0 ≤ clampCoord v lim ∧ clampCoord v lim ≤ lim - 1 := by
  refine ⟨le_max_left 0 _, ?_⟩
  exact max_le (by omega) (min_le_right _ _)

/-- C7: every endpoint of every annotation segment is clamped independently
into [0, width-1] × [0, height-1] — the `max(0, min(v, lim-1))` computation
equals "pull to the nearest edge", and every anchor point of every draw call
issued by `draw_tracings_on_frame`'s loop lies within the frame bounds
(points are clamped, never dropped: each tracing contributes its three draw
calls). -/
theorem draw_endpoints_clamped (w h : ℤ) (hw : 0 < w) (hh : 0 < h)
    (ts : List TracingPoint) :
    (∀ v lim : ℤ, 0 < lim → clampCoord v lim = nearestEdge v lim) ∧
    (∀ t ∈ ts, ∀ c ∈ tracingCalls w h t, c ∈ drawCallsOf w h ts) ∧
    (∀ c ∈ drawCallsOf w h ts, ∀ q ∈ c.anchors,
        0 ≤ q.1 ∧ q.1 ≤ w - 1 ∧ 0 ≤ q.2 ∧ q.2 ≤ h - 1) := by
  refine ⟨?_, ?_, ?_⟩
  · intro v lim hlim
    simp only [clampCoord, nearestEdge, max_def, min_def]
    split_ifs <;> omega
  · intro t ht c hc
    simp only [drawCallsOf, List.mem_flatMap]
    exact ⟨t, ht, hc⟩
  · intro c hc q hq
    simp only [drawCallsOf, List.mem_flatMap] at hc
    obtain ⟨t, -, hct⟩ := hc
    have hx1 := clampCoord_mem (ratTrunc t.x1) w hw
    have hy1 := clampCoord_mem (ratTrunc t.y1) h hh
    have hx2 := clampCoord_mem (ratTrunc t.x2) w hw
    have hy2 := clampCoord_mem (ratTrunc t.y2) h hh
    simp only [tracingCalls, List.mem_cons, List.not_mem_nil, or_false] at hct
    rcases hct with rfl | rfl | rfl
    · simp only [DrawCall.anchors, List.mem_cons, List.not_mem_nil, or_false] at hq
      subst hq
      exact ⟨hx1.1, hx1.2, hy1.1, hy1.2⟩
    · simp only [DrawCall.anchors, List.mem_cons, List.not_mem_nil, or_false] at hq
      subst hq
      exact ⟨hx2.1, hx2.2, hy2.1, hy2.2⟩
    · simp only [DrawCall.anchors, List.mem_cons, List.not_mem_nil, or_false] at hq
      rcases hq with rfl | rfl
      · exact ⟨hx1.1, hx1.2, hy1.1, hy1.2⟩
      · exact ⟨hx2.1, hx2.2, hy2.1, hy2.2⟩

/-- C7, witness: the endpoint (-5, 1000) on a 100×100 frame is clamped to
(0, 99): its green marker call is issued at exactly (0, 99), which is within
bounds. -/
theorem draw_endpoints_clamped_witness :
    clampCoord (-5) 100 = 0 ∧ clampCoord 1000 100 = 99 ∧
    DrawCall.circle ((0 : ℤ), (99 : ℤ)) 2 (0, 255, 0)
        ∈ drawCallsOf 100 100 [⟨-5, 1000, 3, 7⟩] ∧
    (0 ≤ (0 : ℤ) ∧ (0 : ℤ) ≤ 100 - 1 ∧ 0 ≤ (99 : ℤ) ∧ (99 : ℤ) ≤ 100 - 1) := by
  refine ⟨by decide, by decide, ?_, ?_⟩
  · have hmem := (draw_endpoints_clamped 100 100 (by decide) (by decide)
      [⟨-5, 1000, 3, 7⟩]).2.1 ⟨-5, 1000, 3, 7⟩ (by decide)
        (DrawCall.circle ((0 : ℤ), (99 : ℤ)) 2 (0, 255, 0)) (by decide)
    exact hmem
  · exact ⟨by decide, by decide, by decide, by decide⟩

/-- C8: drawing tracings copies the input buffer into a freshly allocated
slot and applies the OpenCV primitives (any in-place pixel semantics
`applyCall`) only to that slot: every pre-existing buffer, the input
included, is unchanged in the resulting store, and the returned slot is the
new one, holding the drawn copy of the input. -/
theorem draw_tracings_preserves_input (applyCall : PixBuf → DrawCall → PixBuf)
    (w h : ℤ) (store : Store) (i : ℕ) (ts : List TracingPoint)
    (hi : i < store.length) :
    (∀ k, k < store.length →
        (draw_tracings_on_frame applyCall w h store i ts).1.getD k []
          = store.getD k []) ∧
    (draw_tracings_on_frame applyCall w h store i ts).1.getD i [] = store.getD i [] ∧
    (draw_tracings_on_frame applyCall w h store i ts).2 = store.length ∧
    (draw_tracings_on_frame applyCall w h store i ts).2 ≠ i ∧
    (draw_tracings_on_frame applyCall w h store i ts).1.getD
        (draw_tracings_on_frame applyCall w h store i ts).2 []
      = (drawCallsOf w h ts).foldl applyCall (store.getD i []) := by
  have hold : ∀ k, k < store.length →
      (store ++ [(drawCallsOf w h ts).foldl applyCall (store.getD i [])]).getD k []
        = store.getD k [] := by
    intro k hk
    rw [List.getD_eq_getElem?_getD, List.getElem?_append, if_pos hk,
        ← List.getD_eq_getElem?_getD]
  have hnew : (store ++ [(drawCallsOf w h ts).foldl applyCall (store.getD i [])]).getD
      store.length []
      = (drawCallsOf w h ts).foldl applyCall (store.getD i []) := by
    rw [List.getD_eq_getElem?_getD, List.getElem?_concat_length]
    rfl
  refine ⟨hold, hold i hi, rfl, ?_, hnew⟩
  show store.length ≠ i
  omega

/-- C8, witness: on the two-buffer store [[1,2],[3]] with identity draw
semantics and no tracings, drawing on buffer 0 leaves both old buffers
unchanged and returns fresh slot 2 holding the copy of buffer 0. -/
theorem draw_tracings_preserves_input_witness :
    (draw_tracings_on_frame (fun b _ => b) 2 2 [[1, 2], [3]] 0 []).1.getD 0 [] = [1, 2] ∧
    (draw_tracings_on_frame (fun b _ => b) 2 2 [[1, 2], [3]] 0 []).1.getD 1 [] = [3] ∧
    (draw_tracings_on_frame (fun b _ => b) 2 2 [[1, 2], [3]] 0 []).2 = 2 := by
  have h := draw_tracings_preserves_input (fun b _ => b) 2 2 [[1, 2], [3]] 0 []
    (by decide)
  refine ⟨?_, ?_, h.2.2.1⟩
  · rw [h.1 0 (by decide)]
    rfl
  · rw [h.1 1 (by decide)]
    rfl

/-- C1, counterexample: with an `ecg_visualization_1.png` present whose
decoding raises, `load_ecg` returns `None` — the very same outcome it
returns when no matching file exists, so a caller cannot distinguish decode
failure from a missing file and no LoadError carrying the cause is ever
returned. -/
theorem load_decode_failure_eq_notfound_cex :
    load_ecg ["ecg_visualization_1.png"] (fun _ => Except.error "broken header") = none ∧
    ["ecg_visualization_1.png"].filter isEcgPng ≠ [] ∧
    load_ecg [] (fun _ => Except.error "broken header") = none := by
  refine ⟨rfl, by decide, rfl⟩

/-- C1, amended: for both the still-image and the video loader, a decode
failure on an existing matching file is swallowed (printed only) and
produces the same `None` result as a missing file; no distinct
LoadError/DecodeError value reaches the caller. -/
theorem loaders_none_on_decode_failure {α : Type} (dir dirv : List String)
    (decode : String → Except String PilImg)
    (decv : String → Except String (EchoDecoded α)) (conv : α → α)
    (fl : Option (List FileListRow)) (tr : Option (List TracingRow))
    (f g : String) (rest restv : List String) (msg msgv : String)
    (h1 : dir.filter isEcgPng = f :: rest) (h2 : decode f = .error msg)
    (h3 : videoFiles dirv = g :: restv) (h4 : decv g = .error msgv) :
    load_ecg dir decode = none ∧ load_echo dirv decv conv fl tr = none := by
  constructor
  · simp only [load_ecg, h1, h2]
  · simp only [load_echo, h3, h4]

/-- C1, witness: concrete directories with a matching file each and a
failing decoder make both loaders return `None`. -/
theorem loaders_none_on_decode_failure_witness :
    load_ecg ["ecg_visualization_1.png"] (fun _ => Except.error "bad file") = none ∧
    load_echo (α := Unit) ["echo.avi"] (fun _ => Except.error "bad file") id none none
      = none :=
  loaders_none_on_decode_failure (α := Unit) ["ecg_visualization_1.png"] ["echo.avi"]
    (fun _ => Except.error "bad file") (fun _ => Except.error "bad file") id none none
    "ecg_visualization_1.png" "echo.avi" [] [] "bad file" "bad file"
    (by decide) rfl (by decide) rfl

/-- C5, counterexample: a directory containing `echo.avi` whose decoding
raises makes `load_echo` return `None`, the NotFound signal, even though a
container file exists — so `None` is not returned exactly when no container
exists. -/
theorem video_notfound_signal_cex :
    load_echo (α := Unit) ["echo.avi"] (fun _ => Except.error "corrupt container")
        id none none = none ∧
    videoFiles ["echo.avi"] ≠ [] := by
  refine ⟨rfl, by decide⟩

/-- C5, amended: the video loader returns `None` when no .mp4/.avi container
exists (and also when decoding fails); when a container exists and decodes
to zero frames it instead returns a pair of the empty frame list and a
metadata record with frame_count 0, an outcome distinguishable from the
`None` signal. -/
theorem video_notfound_vs_empty {α : Type} (dir : List String)
    (decode : String → Except String (EchoDecoded α)) (conv : α → α)
    (fl : Option (List FileListRow)) (tr : Option (List TracingRow)) :
    (videoFiles dir = [] → load_echo dir decode conv fl tr = none) ∧
    (∀ f rest d, videoFiles dir = f :: rest → decode f = .ok d → d.frames = [] →
        ∃ meta, load_echo dir decode conv fl tr = some ([], meta) ∧
          meta.frame_count = 0 ∧ load_echo dir decode conv fl tr ≠ none) := by
  constructor
  · intro hempty
    simp only [load_echo, hempty]
  · intro f rest d h1 h2 h3
    simp only [load_echo, h1, h2, h3, List.map_nil]
    exact ⟨_, rfl, rfl, by simp⟩

/-- C5, witness: an empty directory yields `None`; a directory whose
container decodes to zero frames yields `some ([], meta)` with
frame_count 0. -/
theorem video_notfound_vs_empty_witness :
    load_echo (α := Unit) [] (fun _ => Except.error "x") id none none = none ∧
    ∃ meta, load_echo (α := Unit) ["echo.avi"]
        (fun _ => Except.ok ⟨50, 0, 112, 112, []⟩) id none none = some ([], meta) ∧
      meta.frame_count = 0 := by
  constructor
  · exact (video_notfound_vs_empty [] (fun _ => Except.error "x") id none none).1 rfl
  · obtain ⟨meta, hEq, hc, -⟩ := (video_notfound_vs_empty ["echo.avi"]
      (fun _ => Except.ok ⟨50, 0, 112, 112, []⟩) id none none).2
      "echo.avi" [] ⟨50, 0, 112, 112, []⟩ rfl rfl rfl
    exact ⟨meta, hEq, hc⟩

/-- C9, counterexample: in a recording directory listing an
`ecg_visualization_1.png` before `angio.png`, `load_angio` selects and
returns the ECG visualization file as the angiography image (the decode
oracle tags each decoded image's mode with its file name to expose which
file was decoded). -/
theorem angio_selects_ecg_png_cex :
    angioFile ["ecg_visualization_1.png", "angio.png"] = some "ecg_visualization_1.png" ∧
    isEcgPng "ecg_visualization_1.png" = true ∧
    (load_angio ["ecg_visualization_1.png", "angio.png"]
        (fun n => Except.ok ⟨⟨[1], Dtype.uint8, [0]⟩, n, (1, 1)⟩)).map
        (fun r => r.2.mode)
      = some "ecg_visualization_1.png" := by
  refine ⟨rfl, by decide, rfl⟩

/-- C9, amended: `load_angio` selects the first `*.png` of the directory
listing regardless of naming — when that file decodes, it is returned with
its metadata, whether or not it matches the `ecg_visualization_*.png`
pattern. -/
theorem load_angio_first_png (dir : List String)
    (decode : String → Except String PilImg) (f : String) (rest : List String)
    (img : PilImg)
    (h1 : dir.filter isPng = f :: rest) (h2 : decode f = .ok img) :
    angioFile dir = some f ∧
    load_angio dir decode =
      some (img.arr,
        ⟨"Cardiac Angiography", "png", img.arr.shape, img.size, img.mode, none⟩) := by
  constructor
  · simp only [angioFile, h1]
    rfl
  · simp only [load_angio, h1, h2]

/-- C9, witness: with `ecg_visualization_1.png` listed first, the selected
angiography file is exactly that ECG file. -/
theorem load_angio_first_png_witness :
    angioFile ["ecg_visualization_1.png", "angio.png"] = some "ecg_visualization_1.png" ∧
    load_angio ["ecg_visualization_1.png", "angio.png"]
        (fun n => Except.ok ⟨⟨[1], Dtype.uint8, [0]⟩, n, (1, 1)⟩) =
      some (⟨[1], Dtype.uint8, [0]⟩,
        ⟨"Cardiac Angiography", "png", [1], (1, 1), "ecg_visualization_1.png", none⟩) :=
  load_angio_first_png ["ecg_visualization_1.png", "angio.png"]
    (fun n => Except.ok ⟨⟨[1], Dtype.uint8, [0]⟩, n, (1, 1)⟩)
    "ecg_visualization_1.png" ["angio.png"]
    ⟨⟨[1], Dtype.uint8, [0]⟩, "ecg_visualization_1.png", (1, 1)⟩
    (by decide) rfl

/-- A list's `isEmpty` is `true` exactly when it is `[]`. -/
theorem tracings_isEmpty_iff (l : List (ℤ × List TracingPoint)) :
    l.isEmpty = true ↔ l = [] := by
  cases l <;> simp

/-- C10: on a successful video load, the metadata carries the
volume_tracings key exactly when the annotation lookup is non-empty and the
filelist_data key exactly when the clinical lookup found a row; an absent
table and a present table with no matching rows both leave the key out, so
those two situations are indistinguishable to the caller. -/
theorem echo_metadata_optional_keys {α : Type} (dir : List String)
    (decode : String → Except String (EchoDecoded α)) (conv : α → α)
    (fl : Option (List FileListRow)) (tr : Option (List TracingRow))
    (f : String) (rest : List String) (d : EchoDecoded α)
    (h1 : videoFiles dir = f :: rest) (h2 : decode f = .ok d) :
    ∃ frames meta, load_echo dir decode conv fl tr = some (frames, meta) ∧
      (meta.volume_tracings ≠ none ↔ get_volume_tracings tr f ≠ []) ∧
      meta.filelist_data = get_filelist_metadata fl (fileStem f) ∧
      (tr = none → meta.volume_tracings = none) ∧
      (∀ rows, tr = some rows → selectTracingRows rows f = [] →
          meta.volume_tracings = none) ∧
      (fl = none → meta.filelist_data = none) ∧
      (∀ frows, fl = some frows →
          frows.filter (fun r => r.FileName = fileStem f) = [] →
          meta.filelist_data = none) := by
  simp only [load_echo, h1, h2]
  refine ⟨_, _, rfl, ?_, rfl, ?_, ?_, ?_, ?_⟩
  · by_cases hvt : (get_volume_tracings tr f).isEmpty
    · rw [if_pos hvt]
      rw [tracings_isEmpty_iff] at hvt
      simp [hvt]
    · rw [if_neg hvt]
      simp only [tracings_isEmpty_iff, Bool.not_eq_true] at hvt
      simp
      intro hcon
      rw [hcon] at hvt
      simp at hvt
  · intro htr
    subst htr
    rfl
  · intro rows htr hsel
    subst htr
    have hz : get_volume_tracings (some rows) f = [] := by
      simp only [get_volume_tracings]
      rw [if_pos (by simp [hsel])]
    rw [hz]
    rfl
  · intro hfl
    subst hfl
    rfl
  · intro frows hfl hflt
    subst hfl
    simp only [get_filelist_metadata, hflt]
    rfl

/-- C10, witness: with both tables absent, a successful load of `echo.avi`
yields metadata with neither optional key. -/
theorem echo_metadata_optional_keys_witness :
    (load_echo (α := Unit) ["echo.avi"]
        (fun _ => Except.ok ⟨50, 3, 112, 112, [(), (), ()]⟩) id none none).map
        (fun r => (r.2.volume_tracings, r.2.filelist_data))
      = some (none, none) := by
  obtain ⟨frames, meta, hEq, -, -, htr, -, hfl, -⟩ :=
    echo_metadata_optional_keys (α := Unit) ["echo.avi"]
      (fun _ => Except.ok ⟨50, 3, 112, 112, [(), (), ()]⟩) id none none
      "echo.avi" [] ⟨50, 3, 112, 112, [(), (), ()]⟩ rfl rfl
  rw [hEq]
  simp [htr rfl, hfl rfl]
